import Mathlib

/-
Verification of computeSales.py: catalogue-based sales cost aggregation.

The script joins a sales record (list of JSON objects with optional
fields Product and Quantity) against a price catalogue (list of JSON
objects with optional fields title and price), normalizes signs,
and reports per-file tables, totals and warnings to the console and
to a results file.

Shallow embedding: JSON objects are records of optional fields; numbers
are rationals; the Python exceptions that can escape (TypeError from
abs(None) or None < 0 when a Quantity field is absent) are modelled as
Except.error; console/file output is modelled as lists of abstract
lines; the filesystem is a function from paths to optional parsed
documents; the wall clock is a function from call index to time.
-/

namespace ComputeSales

/-- A loosely structured JSON object as the script accesses it via
dict.get: catalogue entries use title and price, sale entries use
product and quantity; any field may be absent. -/
structure Obj where
  title : Option String
  price : Option Rat
  product : Option String
  quantity : Option Rat
deriving DecidableEq

/-- One row of the per-file table built in main: product name,
normalized quantity, normalized unit price, and subtotal. -/
structure Row where
  product : Option String
  quantity : Rat
  unitPrice : Rat
  subtotal : Rat
deriving DecidableEq

/-- One line of textual output, abstracted from its exact formatting.
Each constructor corresponds to one print statement of the script. -/
inductive Line where
  | usage
  | loadErr (path : String)
  | catLoadFail
  | salesLoadFail (path : String)
  | label (path : String)
  | warnNegPrice (name : Option String)
  | warnNegQty (name : Option String)
  | warnNotFound (name : Option String)
  | table (rows : List Row)
  | total (cost : Rat)
  | elapsed (t : Rat)
deriving DecidableEq

/-- The body of the sale loop of calculate_total_cost for one sale:
product_name = sale.get('Product'); quantity = abs(sale.get('Quantity'))
(TypeError when the field is absent); first catalogue entry whose
title equals the product name supplies the unit price (absent price
defaults to 0); a negative unit price is warned about on the console
and replaced by its absolute value.  Returns the contribution to the
total and the console warnings emitted. -/
def calcSale (cat : List Obj) (s : Obj) : Except String (Rat × List Line) :=
  match s.quantity with
  | none => .error "TypeError"
  | some q0 =>
    let q := |q0|
    match cat.find? (fun p => p.title == s.product) with
    | some p =>
      let up := p.price.getD 0
      if up < 0 then .ok (|up| * q, [Line.warnNegPrice s.product])
      else .ok (up * q, [])
    | none => .ok (0, [])

/-- calculate_total_cost: sums the contributions of all sale entries,
collecting the console warnings in order. -/
def calculate_total_cost (cat : List Obj) : List Obj → Except String (Rat × List Line)
  | [] => .ok (0, [])
  | s :: rest =>
    match calcSale cat s with
    | .error e => .error e
    | .ok (c, w) =>
      match calculate_total_cost cat rest with
      | .error e => .error e
      | .ok (cs, ws) => .ok (c + cs, w ++ ws)

/-- The body of the table-building loop of main for one sale:
quantity = sale.get('Quantity'); None < 0 raises TypeError; a negative
quantity is warned about on the console and both a negative quantity
and a non-negative one are replaced by the absolute value; a matched
sale adds one row (negative unit price silently normalized); an
unmatched sale prints a not-found warning to the console and to the
file.  Returns (rows, console lines, file lines). -/
def tableStep (cat : List Obj) (s : Obj) :
    Except String (List Row × List Line × List Line) :=
  match s.quantity with
  | none => .error "TypeError"
  | some q0 =>
    let negWarn : List Line := if q0 < 0 then [Line.warnNegQty s.product] else []
    let q := |q0|
    match cat.find? (fun p => p.title == s.product) with
    | some p =>
      let up0 := p.price.getD 0
      let up := if up0 < 0 then |up0| else up0
      .ok ([⟨s.product, q, up, up * q⟩], negWarn, [])
    | none =>
      .ok ([], negWarn ++ [Line.warnNotFound s.product], [Line.warnNotFound s.product])

/-- The full table-building loop of main over a sales record. -/
def tableLoop (cat : List Obj) : List Obj → Except String (List Row × List Line × List Line)
  | [] => .ok ([], [], [])
  | s :: rest =>
    match tableStep cat s with
    | .error e => .error e
    | .ok (r, c, f) =>
      match tableLoop cat rest with
      | .error e => .error e
      | .ok (rs, cs, fs) => .ok (r ++ rs, c ++ cs, f ++ fs)

/-- The per-sales-file loop of main.  load models load_json (None on a
missing or malformed file, with its error line printed to the console);
clock models datetime.now as a sequence of readings, start being
reading 0; i is the index of the next clock reading (the console and
the file elapsed-time lines each take a fresh reading). -/
def processFiles (cat : List Obj) (load : String → Option (List Obj))
    (clock : Nat → Rat) (start : Rat) :
    List String → Nat → Except String (List Line × List Line)
  | [], _ => .ok ([], [])
  | p :: ps, i =>
    match load p with
    | none =>
      match processFiles cat load clock start ps i with
      | .error e => .error e
      | .ok (c, f) => .ok (Line.loadErr p :: Line.salesLoadFail p :: c, f)
    | some sales =>
      match calculate_total_cost cat sales with
      | .error e => .error e
      | .ok (tc, w) =>
        match tableLoop cat sales with
        | .error e => .error e
        | .ok (rows, cw, fw) =>
          match processFiles cat load clock start ps (i + 2) with
          | .error e => .error e
          | .ok (c, f) =>
            .ok (Line.label p ::
                   (w ++ cw ++ [Line.table rows, Line.total tc,
                      Line.elapsed (clock i - start)] ++ c),
                 Line.label p ::
                   (fw ++ [Line.table rows, Line.total tc,
                      Line.elapsed (clock (i + 1) - start)] ++ f))

/-- main: usage check, catalogue load (fatal on failure), then the
per-file loop writing to console and result file.  Returns the console
lines and the result-file lines, or the uncaught exception. -/
def main (argv : List String) (load : String → Option (List Obj))
    (clock : Nat → Rat) : Except String (List Line × List Line) :=
  match argv with
  | _ :: catp :: p :: ps =>
    match load catp with
    | none => .ok ([Line.loadErr catp, Line.catLoadFail], [])
    | some cat => processFiles cat load clock (clock 0) (p :: ps) 1
  | _ => .ok ([Line.usage], [])

/-- The catalogue price of a product name under first-match-by-title
lookup, 0 when the name is absent (used only to state properties). -/
def catPrice (cat : List Obj) (name : Option String) : Rat :=
  match cat.find? (fun p => p.title == name) with
  | some p => p.price.getD 0
  | none => 0

/-- Negate the Quantity field of a sale entry (absent stays absent). -/
def negQ (s : Obj) : Obj := ⟨s.title, s.price, s.product, s.quantity.map (fun q => -q)⟩

/-- Negate the price field of a catalogue entry (absent stays absent). -/
def negP (e : Obj) : Obj := ⟨e.title, e.price.map (fun p => -p), e.product, e.quantity⟩

/-- Lines that main writes both to the console and to the result file:
per-file labels, tables, unmatched-product warnings and total lines. -/
def Line.shared : Line → Bool
  | Line.label _ => true
  | Line.table _ => true
  | Line.total _ => true
  | Line.warnNotFound _ => true
  | _ => false

/- Helper lemmas shared by the claim proofs. -/

lemma except_map_eq_error {α β : Type} (f : α → β) (x : Except String α) (e : String) :
    x.map f = .error e ↔ x = .error e := by
  cases x <;> simp [Except.map]

lemma except_map_eq_ok {α β : Type} (f : α → β) (x : Except String α) (b : β) :
    x.map f = .ok b ↔ ∃ a, x = .ok a ∧ f a = b := by
  cases x <;> simp [Except.map]

/-- First-match semantics of the catalogue scan: when no entry of c1
has the sought title and e has it, the scan over c1 ++ e :: c2 stops
at e, whatever c2 holds. -/
lemma find_first (c1 : List Obj) (e : Obj) (c2 : List Obj) (nm : Option String)
    (he : e.title = nm) (hfirst : ∀ x ∈ c1, ¬ x.title = nm) :
    (c1 ++ e :: c2).find? (fun p => p.title == nm) = some e := by
  induction c1 with
  | nil => simp [List.find?_cons_of_pos, he]
  | cons a as ih =>
    have ha : (a.title == nm) = false := by
      simp [hfirst a (List.mem_cons_self a as)]
    rw [List.cons_append, List.find?_cons_of_neg _ (by simp [ha])]
    exact ih (fun x hx => hfirst x (List.mem_cons_of_mem a hx))

/-- C1: For every catalogue and every sales record in which no price or
Quantity is negative and every sale's Product occurs as a title in the
catalogue, calculate_total_cost returns the sum over all sale entries
of the catalogue price of the sale's product times the sale's
quantity (and no warnings are printed). -/
theorem C1_total_is_sum_of_price_times_quantity (cat sales : List Obj)
    (hp : ∀ e ∈ cat, 0 ≤ e.price.getD 0)
    (hq : ∀ s ∈ sales, ∃ q, s.quantity = some q ∧ 0 ≤ q)
    (hm : ∀ s ∈ sales, ∃ e ∈ cat, e.title = s.product) :
    calculate_total_cost cat sales =
      .ok ((sales.map (fun s => catPrice cat s.product * s.quantity.getD 0)).sum, []) := by
  induction sales with
  | nil => simp [calculate_total_cost]
  | cons s rest ih =>
    obtain ⟨q, hsq, hq0⟩ := hq s (List.mem_cons_self s rest)
    obtain ⟨e, hecat, het⟩ := hm s (List.mem_cons_self s rest)
    have hsome : (cat.find? (fun p => p.title == s.product)).isSome :=
      List.find?_isSome.mpr ⟨e, hecat, by simp [het]⟩
    obtain ⟨e0, hfind⟩ := Option.isSome_iff_exists.mp hsome
    have he0cat : e0 ∈ cat := List.mem_of_find?_eq_some hfind
    have hup : ¬ e0.price.getD 0 < 0 := not_lt.mpr (hp e0 he0cat)
    have ihr := ih (fun x hx => hq x (List.mem_cons_of_mem s hx))
      (fun x hx => hm x (List.mem_cons_of_mem s hx))
    simp only [calculate_total_cost, calcSale, hsq, hfind, hup, if_false, ihr]
    simp [catPrice, hfind, abs_of_nonneg hq0, hsq]

/-- Witness for C1 at Scenario A: catalogue [title Widget, price 10],
sales [Product Widget, Quantity 3] gives total 30 and no warnings. -/
theorem C1_total_is_sum_of_price_times_quantity_witness :
    calculate_total_cost [⟨some "Widget", some 10, none, none⟩]
      [⟨none, none, some "Widget", some 3⟩] = .ok (30, []) := by
  have h := C1_total_is_sum_of_price_times_quantity
    [⟨some "Widget", some 10, none, none⟩] [⟨none, none, some "Widget", some 3⟩]
    (by intro e he; simp at he; subst he; decide)
    (by intro s hs; simp at hs; subst hs; exact ⟨3, rfl, by decide⟩)
    (by intro s hs; simp at hs; subst hs
        exact ⟨⟨some "Widget", some 10, none, none⟩, by simp, rfl⟩)
  rw [h]
  norm_num [catPrice, List.find?]

/-- C2: When several catalogue entries share a title, a matching sale
is priced by the first such entry in catalogue order; the entries
after it (c2, which may repeat the title) do not influence the
result at all. -/
theorem C2_first_match_wins (c1 c2 : List Obj) (e s : Obj) (q : Rat)
    (hq : s.quantity = some q)
    (he : e.title = s.product)
    (hfirst : ∀ x ∈ c1, ¬ x.title = s.product) :
    calculate_total_cost (c1 ++ e :: c2) [s] =
      .ok ((if e.price.getD 0 < 0 then |e.price.getD 0| else e.price.getD 0) * |q|,
           if e.price.getD 0 < 0 then [Line.warnNegPrice s.product] else []) := by
  have hfind := find_first c1 e c2 s.product he hfirst
  by_cases hneg : e.price.getD 0 < 0 <;>
    simp [calculate_total_cost, calcSale, hq, hfind, hneg]

/-- Witness for C2: with two catalogue entries both titled A (prices 5
then 7), a sale of two A is priced 5 each: total 10, ignoring the
second entry. -/
theorem C2_first_match_wins_witness :
    calculate_total_cost [⟨some "A", some 5, none, none⟩, ⟨some "A", some 7, none, none⟩]
      [⟨none, none, some "A", some 2⟩] = .ok (10, []) := by
  have h := C2_first_match_wins [] [⟨some "A", some 7, none, none⟩]
    ⟨some "A", some 5, none, none⟩ ⟨none, none, some "A", some 2⟩ 2
    rfl rfl (by intro x hx; simp at hx)
  norm_num at h
  exact h

lemma calcSale_negQ (cat : List Obj) (s : Obj) :
    calcSale cat (negQ s) = calcSale cat s := by
  cases hq : s.quantity with
  | none => simp [calcSale, negQ, hq]
  | some q => simp [calcSale, negQ, hq, abs_neg]

lemma total_negQ (cat sales : List Obj) :
    calculate_total_cost cat (sales.map negQ) = calculate_total_cost cat sales := by
  induction sales with
  | nil => simp [calculate_total_cost]
  | cons s rest ih =>
    simp only [List.map_cons, calculate_total_cost, calcSale_negQ, ih]

lemma tableStep_negQ (cat : List Obj) (s : Obj) :
    (tableStep cat (negQ s)).map (fun x => (x.1, x.2.2)) =
      (tableStep cat s).map (fun x => (x.1, x.2.2)) := by
  cases hq : s.quantity with
  | none => simp [tableStep, negQ, hq]
  | some q =>
    cases hf : cat.find? (fun p => p.title == s.product) with
    | none => simp [tableStep, negQ, hq, hf, Except.map, abs_neg]
    | some p => simp [tableStep, negQ, hq, hf, Except.map, abs_neg]

lemma tableLoop_negQ (cat sales : List Obj) :
    (tableLoop cat (sales.map negQ)).map (fun x => (x.1, x.2.2)) =
      (tableLoop cat sales).map (fun x => (x.1, x.2.2)) := by
  induction sales with
  | nil => simp [tableLoop]
  | cons s rest ih =>
    have hs := tableStep_negQ cat s
    cases h1 : tableStep cat s with
    | error e =>
      have h1' : tableStep cat (negQ s) = .error e := by
        rw [h1] at hs
        exact (except_map_eq_error _ _ _).mp (by simpa [Except.map] using hs)
      simp [tableLoop, h1, h1', Except.map]
    | ok v =>
      obtain ⟨r, c, f⟩ := v
      rw [h1] at hs
      obtain ⟨⟨r', c', f'⟩, h1', hpr⟩ :=
        (except_map_eq_ok _ _ _).mp (by simpa [Except.map] using hs)
      simp only [Prod.mk.injEq] at hpr
      cases h2 : tableLoop cat rest with
      | error e2 =>
        have h2' : tableLoop cat (rest.map negQ) = .error e2 := by
          rw [h2] at ih
          exact (except_map_eq_error _ _ _).mp (by simpa [Except.map] using ih)
        simp [tableLoop, h1, h1', h2, h2', Except.map]
      | ok w =>
        obtain ⟨rs, cs, fs⟩ := w
        rw [h2] at ih
        obtain ⟨⟨rs', cs', fs'⟩, h2', hpr2⟩ :=
          (except_map_eq_ok _ _ _).mp (by simpa [Except.map] using ih)
        simp only [Prod.mk.injEq] at hpr2
        simp [tableLoop, h1, h1', h2, h2', Except.map,
          hpr.1, hpr.2, hpr2.1, hpr2.2]

lemma find_negP (cat : List Obj) (nm : Option String) :
    (cat.map negP).find? (fun p => p.title == nm) =
      (cat.find? (fun p => p.title == nm)).map negP := by
  induction cat with
  | nil => simp [List.find?]
  | cons a as ih =>
    by_cases h : (a.title == nm) = true
    · have e1 : ((negP a :: as.map negP).find? (fun p => p.title == nm)) = some (negP a) :=
        List.find?_cons_of_pos _ (by simpa [negP] using h)
      have e2 : ((a :: as).find? (fun p => p.title == nm)) = some a :=
        List.find?_cons_of_pos _ h
      rw [List.map_cons, e1, e2]
      simp
    · have e1 : ((negP a :: as.map negP).find? (fun p => p.title == nm)) =
          (as.map negP).find? (fun p => p.title == nm) :=
        List.find?_cons_of_neg _ (by simpa [negP] using h)
      have e2 : ((a :: as).find? (fun p => p.title == nm)) =
          as.find? (fun p => p.title == nm) :=
        List.find?_cons_of_neg _ h
      rw [List.map_cons, e1, e2, ih]

lemma getD_negP (e : Obj) : (negP e).price.getD 0 = -(e.price.getD 0) := by
  cases h : e.price <;> simp [negP, h]

lemma calcSale_negP_fst (cat : List Obj) (s : Obj) :
    (calcSale (cat.map negP) s).map Prod.fst = (calcSale cat s).map Prod.fst := by
  cases hq : s.quantity with
  | none => simp [calcSale, hq, Except.map]
  | some q =>
    cases hf : cat.find? (fun p => p.title == s.product) with
    | none =>
      simp only [calcSale, hq, find_negP, hf, Option.map_none']
    | some p =>
      simp only [calcSale, hq, find_negP, hf, Option.map_some', getD_negP]
      rcases lt_trichotomy (p.price.getD 0) 0 with h | h | h
      · rw [if_neg (by linarith), if_pos h]
        simp [Except.map, abs_of_neg h]
      · rw [h]
        simp [Except.map]
      · rw [if_pos (by linarith), if_neg (by linarith)]
        simp [Except.map, abs_neg, abs_of_pos h]

lemma total_negP_fst (cat sales : List Obj) :
    (calculate_total_cost (cat.map negP) sales).map Prod.fst =
      (calculate_total_cost cat sales).map Prod.fst := by
  induction sales with
  | nil => simp [calculate_total_cost]
  | cons s rest ih =>
    have hs := calcSale_negP_fst cat s
    cases h1 : calcSale cat s with
    | error e =>
      have h1' : calcSale (cat.map negP) s = .error e := by
        rw [h1] at hs
        exact (except_map_eq_error _ _ _).mp (by simpa [Except.map] using hs)
      simp [calculate_total_cost, h1, h1', Except.map]
    | ok v =>
      obtain ⟨c, w⟩ := v
      rw [h1] at hs
      obtain ⟨⟨c', w'⟩, h1', hpr⟩ :=
        (except_map_eq_ok _ _ _).mp (by simpa [Except.map] using hs)
      simp only at hpr
      cases h2 : calculate_total_cost cat rest with
      | error e2 =>
        have h2' : calculate_total_cost (cat.map negP) rest = .error e2 := by
          rw [h2] at ih
          exact (except_map_eq_error _ _ _).mp (by simpa [Except.map] using ih)
        simp [calculate_total_cost, h1, h1', h2, h2', Except.map]
      | ok u =>
        obtain ⟨cs, ws⟩ := u
        rw [h2] at ih
        obtain ⟨⟨cs', ws'⟩, h2', hpr2⟩ :=
          (except_map_eq_ok _ _ _).mp (by simpa [Except.map] using ih)
        simp only at hpr2
        simp [calculate_total_cost, h1, h1', h2, h2', Except.map, hpr, hpr2]

lemma tableStep_negP (cat : List Obj) (s : Obj) :
    tableStep (cat.map negP) s = tableStep cat s := by
  cases hq : s.quantity with
  | none => simp [tableStep, hq]
  | some q =>
    cases hf : cat.find? (fun p => p.title == s.product) with
    | none =>
      simp only [tableStep, hq, find_negP, hf, Option.map_none']
    | some p =>
      simp only [tableStep, hq, find_negP, hf, Option.map_some', getD_negP]
      rcases lt_trichotomy (p.price.getD 0) 0 with h | h | h
      · have hc : ¬ -(p.price.getD 0) < 0 := by linarith
        simp only [if_neg hc, if_pos h]
        simp [abs_of_neg h]
      · rw [h]
        simp
      · have hc : -(p.price.getD 0) < 0 := by linarith
        have hc2 : ¬ p.price.getD 0 < 0 := by linarith
        simp only [if_pos hc, if_neg hc2]
        simp [abs_neg, abs_of_pos h]

lemma tableLoop_negP (cat sales : List Obj) :
    tableLoop (cat.map negP) sales = tableLoop cat sales := by
  induction sales with
  | nil => simp [tableLoop]
  | cons s rest ih => simp only [tableLoop, tableStep_negP, ih]

/-- C3: Sign invariance.  Negating every Quantity of the sales record
leaves the total cost, the table rows and the unmatched-product
warnings of the result file unchanged; negating every price of the
catalogue leaves the total cost unchanged and the whole table loop
unchanged.  (Only the negative-value console warnings can differ.) -/
theorem C3_sign_invariance (cat sales : List Obj) :
    (calculate_total_cost cat (sales.map negQ) = calculate_total_cost cat sales
      ∧ (tableLoop cat (sales.map negQ)).map (fun x => (x.1, x.2.2)) =
          (tableLoop cat sales).map (fun x => (x.1, x.2.2)))
    ∧ ((calculate_total_cost (cat.map negP) sales).map Prod.fst =
          (calculate_total_cost cat sales).map Prod.fst
      ∧ tableLoop (cat.map negP) sales = tableLoop cat sales) :=
  ⟨⟨total_negQ cat sales, tableLoop_negQ cat sales⟩,
   ⟨total_negP_fst cat sales, tableLoop_negP cat sales⟩⟩

/-- C4: A sale entry whose Product has no catalogue match contributes
0 to the file total (and the rest of the record is still summed), adds
no table row, emits exactly one unmatched-product warning to the
console and one to the result file, and the remaining sale entries are
still processed. -/
theorem C4_unmatched_sale (cat : List Obj) (s : Obj) (q : Rat) (rest : List Obj)
    (hq : s.quantity = some q)
    (hnm : cat.find? (fun p => p.title == s.product) = none) :
    calcSale cat s = .ok (0, [])
    ∧ calculate_total_cost cat (s :: rest) = calculate_total_cost cat rest
    ∧ tableStep cat s =
        .ok ([], (if q < 0 then [Line.warnNegQty s.product] else []) ++
          [Line.warnNotFound s.product], [Line.warnNotFound s.product])
    ∧ tableLoop cat (s :: rest) =
        (tableLoop cat rest).map (fun x =>
          (x.1, (if q < 0 then [Line.warnNegQty s.product] else []) ++
            Line.warnNotFound s.product :: x.2.1,
           Line.warnNotFound s.product :: x.2.2)) := by
  have h1 : calcSale cat s = .ok (0, []) := by simp [calcSale, hq, hnm]
  have h3 : tableStep cat s =
      .ok ([], (if q < 0 then [Line.warnNegQty s.product] else []) ++
        [Line.warnNotFound s.product], [Line.warnNotFound s.product]) := by
    simp [tableStep, hq, hnm]
  refine ⟨h1, ?_, h3, ?_⟩
  · simp only [calculate_total_cost, h1]
    cases h2 : calculate_total_cost cat rest with
    | error e => rfl
    | ok u => obtain ⟨cs, ws⟩ := u; simp
  · simp only [tableLoop, h3]
    cases h2 : tableLoop cat rest with
    | error e => rfl
    | ok u => obtain ⟨rs, cs, fs⟩ := u; simp [Except.map]

/-- Witness for C4 at Scenario C: a sale of Gizmo against a catalogue
holding only Widget contributes 0 and produces one unmatched warning
per output sink. -/
theorem C4_unmatched_sale_witness :
    calcSale [⟨some "Widget", some 10, none, none⟩] ⟨none, none, some "Gizmo", some 1⟩ =
      .ok (0, [])
    ∧ tableStep [⟨some "Widget", some 10, none, none⟩] ⟨none, none, some "Gizmo", some 1⟩ =
        .ok ([], [Line.warnNotFound (some "Gizmo")], [Line.warnNotFound (some "Gizmo")]) := by
  have h := C4_unmatched_sale [⟨some "Widget", some 10, none, none⟩]
    ⟨none, none, some "Gizmo", some 1⟩ 1 [] rfl (by decide)
  refine ⟨h.1, ?_⟩
  have h3 := h.2.2.1
  norm_num at h3
  exact h3

lemma calcSale_eq_tableStep_sum (cat : List Obj) (s : Obj) :
    (calcSale cat s).map Prod.fst =
      (tableStep cat s).map (fun x => (x.1.map Row.subtotal).sum) := by
  cases hq : s.quantity with
  | none => simp [calcSale, tableStep, hq, Except.map]
  | some q =>
    cases hf : cat.find? (fun p => p.title == s.product) with
    | none => simp [calcSale, tableStep, hq, hf, Except.map]
    | some p =>
      by_cases h : p.price.getD 0 < 0 <;>
        simp [calcSale, tableStep, hq, hf, h, Except.map]

/-- C8: The total returned by calculate_total_cost agrees with the sum
of the subtotals of the table rows built independently in main;
unmatched sales appear in neither, and both computations fail on the
same input (a sale with an absent Quantity) with the same error. -/
theorem C8_total_is_sum_of_row_subtotals (cat sales : List Obj) :
    (calculate_total_cost cat sales).map Prod.fst =
      (tableLoop cat sales).map (fun x => (x.1.map Row.subtotal).sum) := by
  induction sales with
  | nil => simp [calculate_total_cost, tableLoop, Except.map]
  | cons s rest ih =>
    have hs := calcSale_eq_tableStep_sum cat s
    cases h1 : calcSale cat s with
    | error e =>
      have h1' : tableStep cat s = .error e := by
        rw [h1] at hs
        exact (except_map_eq_error _ _ _).mp (by simpa [Except.map] using hs.symm)
      simp [calculate_total_cost, tableLoop, h1, h1', Except.map]
    | ok v =>
      obtain ⟨c, w⟩ := v
      rw [h1] at hs
      obtain ⟨⟨r', c', f'⟩, h1', hpr⟩ :=
        (except_map_eq_ok _ _ _).mp (by simpa [Except.map] using hs.symm)
      simp only at hpr
      cases h2 : calculate_total_cost cat rest with
      | error e2 =>
        have h2' : tableLoop cat rest = .error e2 := by
          rw [h2] at ih
          exact (except_map_eq_error _ _ _).mp (by simpa [Except.map] using ih.symm)
        simp [calculate_total_cost, tableLoop, h1, h1', h2, h2', Except.map]
      | ok u =>
        obtain ⟨cs, ws⟩ := u
        rw [h2] at ih
        obtain ⟨⟨rs', cs', fs'⟩, h2', hpr2⟩ :=
          (except_map_eq_ok _ _ _).mp (by simpa [Except.map] using ih.symm)
        simp only at hpr2
        simp only [calculate_total_cost, tableLoop, h1, h1', h2, h2', Except.map]
        rw [← hpr, ← hpr2]
        simp

lemma calcSale_nonneg (cat : List Obj) (s : Obj) (c : Rat) (w : List Line)
    (h : calcSale cat s = .ok (c, w)) : 0 ≤ c := by
  cases hq : s.quantity with
  | none => simp [calcSale, hq] at h
  | some q =>
    cases hf : cat.find? (fun p => p.title == s.product) with
    | none =>
      simp only [calcSale, hq, hf, Except.ok.injEq, Prod.mk.injEq] at h
      rw [← h.1]
    | some p =>
      by_cases h0 : p.price.getD 0 < 0 <;>
        simp only [calcSale, hq, hf, h0, if_true, if_false,
          Except.ok.injEq, Prod.mk.injEq] at h <;> rw [← h.1]
      · positivity
      · exact mul_nonneg (not_lt.mp h0) (abs_nonneg q)

lemma total_nonneg (cat sales : List Obj) (t : Rat) (w : List Line)
    (h : calculate_total_cost cat sales = .ok (t, w)) : 0 ≤ t := by
  induction sales generalizing t w with
  | nil =>
    simp only [calculate_total_cost, Except.ok.injEq, Prod.mk.injEq] at h
    rw [← h.1]
  | cons s rest ih =>
    simp only [calculate_total_cost] at h
    cases h1 : calcSale cat s with
    | error e => rw [h1] at h; simp at h
    | ok v =>
      obtain ⟨c, w1⟩ := v
      rw [h1] at h
      cases h2 : calculate_total_cost cat rest with
      | error e2 => rw [h2] at h; simp at h
      | ok u =>
        obtain ⟨cs, ws⟩ := u
        rw [h2] at h
        simp only [Except.ok.injEq, Prod.mk.injEq] at h
        rw [← h.1]
        exact add_nonneg (calcSale_nonneg cat s c w1 h1) (ih cs ws h2)

lemma tableStep_rows_nonneg (cat : List Obj) (s : Obj) (rows : List Row)
    (cw fw : List Line) (h : tableStep cat s = .ok (rows, cw, fw)) :
    ∀ r ∈ rows, 0 ≤ r.quantity ∧ 0 ≤ r.unitPrice ∧ 0 ≤ r.subtotal := by
  cases hq : s.quantity with
  | none => simp [tableStep, hq] at h
  | some q =>
    cases hf : cat.find? (fun p => p.title == s.product) with
    | none =>
      simp only [tableStep, hq, hf, Except.ok.injEq, Prod.mk.injEq] at h
      rw [← h.1]
      simp
    | some p =>
      have hup : 0 ≤ if p.price.getD 0 < 0 then |p.price.getD 0| else p.price.getD 0 := by
        by_cases h0 : p.price.getD 0 < 0
        · rw [if_pos h0]; positivity
        · rw [if_neg h0]; exact not_lt.mp h0
      simp only [tableStep, hq, hf, Except.ok.injEq, Prod.mk.injEq] at h
      rw [← h.1]
      intro r hr
      simp only [List.mem_singleton] at hr
      subst hr
      exact ⟨abs_nonneg q, hup, mul_nonneg hup (abs_nonneg q)⟩

lemma tableLoop_rows_nonneg (cat sales : List Obj) (rows : List Row)
    (cw fw : List Line) (h : tableLoop cat sales = .ok (rows, cw, fw)) :
    ∀ r ∈ rows, 0 ≤ r.quantity ∧ 0 ≤ r.unitPrice ∧ 0 ≤ r.subtotal := by
  induction sales generalizing rows cw fw with
  | nil =>
    simp only [tableLoop, Except.ok.injEq, Prod.mk.injEq] at h
    rw [← h.1]
    simp
  | cons s rest ih =>
    simp only [tableLoop] at h
    cases h1 : tableStep cat s with
    | error e => rw [h1] at h; simp at h
    | ok v =>
      obtain ⟨r1, c1, f1⟩ := v
      rw [h1] at h
      cases h2 : tableLoop cat rest with
      | error e2 => rw [h2] at h; simp at h
      | ok u =>
        obtain ⟨rs, cs, fs⟩ := u
        rw [h2] at h
        simp only [Except.ok.injEq, Prod.mk.injEq] at h
        rw [← h.1]
        intro r hr
        rcases List.mem_append.mp hr with hm | hm
        · exact tableStep_rows_nonneg cat s r1 c1 f1 h1 r hm
        · exact ih rs cs fs h2 r hm

/-- C9: Sign normalization before multiplication: whenever the
computations succeed, the file total returned by calculate_total_cost
is non-negative, and every table row has non-negative quantity, unit
price and subtotal — the program never computes a negative cost. -/
theorem C9_no_negative_costs (cat sales : List Obj) :
    (∀ t w, calculate_total_cost cat sales = .ok (t, w) → 0 ≤ t)
    ∧ (∀ rows cw fw, tableLoop cat sales = .ok (rows, cw, fw) →
        ∀ r ∈ rows, 0 ≤ r.quantity ∧ 0 ≤ r.unitPrice ∧ 0 ≤ r.subtotal) :=
  ⟨fun t w h => total_nonneg cat sales t w h,
   fun rows cw fw h => tableLoop_rows_nonneg cat sales rows cw fw h⟩

/-- Witness for C9 at Scenario B: negative price and quantity still
yield the non-negative total 10. -/
theorem C9_no_negative_costs_witness : (0 : Rat) ≤ 10 :=
  (C9_no_negative_costs [⟨some "Gadget", some (-5), none, none⟩]
      [⟨none, none, some "Gadget", some (-2)⟩]).1
    10 [Line.warnNegPrice (some "Gadget")]
    (by norm_num [calculate_total_cost, calcSale, List.find?, abs])

/-- C10: With a fully titled catalogue, a sale entry whose Product
field is absent behaves exactly like an unmatched product (contributes
0, one unmatched warning per sink, no row, no error); but when some
catalogue entry also lacks its title and no earlier entry is a match,
the absent Product matches that entry (None == None) and is priced by
it. -/
theorem C10_missing_product_field (cat : List Obj) (s : Obj) (q : Rat)
    (hq : s.quantity = some q) (hp : s.product = none) :
    ((∀ e ∈ cat, (e.title).isSome) →
      calcSale cat s = .ok (0, [])
      ∧ tableStep cat s =
          .ok ([], (if q < 0 then [Line.warnNegQty none] else []) ++
            [Line.warnNotFound none], [Line.warnNotFound none]))
    ∧ (∀ pre e rest, cat = pre ++ e :: rest → e.title = none →
        (∀ x ∈ pre, (x.title).isSome) →
        calcSale cat s =
          .ok ((if e.price.getD 0 < 0 then |e.price.getD 0| else e.price.getD 0) * |q|,
            if e.price.getD 0 < 0 then [Line.warnNegPrice none] else [])) := by
  constructor
  · intro hall
    have hnm : cat.find? (fun p => p.title == (none : Option String)) = none := by
      rw [List.find?_eq_none]
      intro x hx
      have hx2 := hall x hx
      cases hxt : x.title with
      | none => rw [hxt] at hx2; simp at hx2
      | some t => simp
    exact ⟨by simp [calcSale, hq, hp, hnm], by simp [tableStep, hq, hp, hnm]⟩
  · intro pre e rest hcat het hpre
    have hfind : cat.find? (fun p => p.title == (none : Option String)) = some e := by
      subst hcat
      refine find_first pre e rest none het ?_
      intro x hx hxt
      have hx2 := hpre x hx
      rw [hxt] at hx2
      simp at hx2
    by_cases h0 : e.price.getD 0 < 0 <;> simp [calcSale, hq, hp, hfind, h0]

/-- Witness for C10: a sale with no Product field against a fully
titled catalogue contributes 0 and is not an error. -/
theorem C10_missing_product_field_witness :
    calcSale [⟨some "W", some 10, none, none⟩] ⟨none, none, none, some 1⟩ = .ok (0, []) :=
  ((C10_missing_product_field [⟨some "W", some 10, none, none⟩]
      ⟨none, none, none, some 1⟩ 1 rfl rfl).1 (by decide)).1

/-- C5: A catalogue load failure terminates the run before any sales
file is processed (only the two error lines reach the console, nothing
reaches the result file); a sales-file load failure is reported on the
console and the remaining files are still processed; concretely, with
two sales files where the first fails to load, the second file's
table, total and elapsed lines still reach console and result file. -/
theorem C5_load_failure_policy :
    (∀ (prog catp p : String) (ps : List String) (load : String → Option (List Obj))
        (clock : Nat → Rat), load catp = none →
        main (prog :: catp :: p :: ps) load clock =
          .ok ([Line.loadErr catp, Line.catLoadFail], []))
    ∧ (∀ (prog catp p : String) (ps : List String) (load : String → Option (List Obj))
        (clock : Nat → Rat) (cat : List Obj),
        load catp = some cat → load p = none →
        main (prog :: catp :: p :: ps) load clock =
          (processFiles cat load clock (clock 0) ps 1).map
            (fun cf => (Line.loadErr p :: Line.salesLoadFail p :: cf.1, cf.2)))
    ∧ (∀ (prog catp p1 p2 : String) (load : String → Option (List Obj))
        (clock : Nat → Rat) (cat sales : List Obj) (tc : Rat) (w : List Line)
        (rows : List Row) (cw fw : List Line),
        load catp = some cat → load p1 = none → load p2 = some sales →
        calculate_total_cost cat sales = .ok (tc, w) →
        tableLoop cat sales = .ok (rows, cw, fw) →
        main [prog, catp, p1, p2] load clock =
          .ok (Line.loadErr p1 :: Line.salesLoadFail p1 :: Line.label p2 ::
                 (w ++ cw ++ [Line.table rows, Line.total tc,
                    Line.elapsed (clock 1 - clock 0)]),
               Line.label p2 ::
                 (fw ++ [Line.table rows, Line.total tc,
                    Line.elapsed (clock 2 - clock 0)]))) := by
  refine ⟨?_, ?_, ?_⟩
  · intro prog catp p ps load clock h
    simp [main, h]
  · intro prog catp p ps load clock cat h1 h2
    simp only [main, h1, processFiles, h2]
    cases h3 : processFiles cat load clock (clock 0) ps 1 with
    | error e => simp [Except.map]
    | ok cf => obtain ⟨c, f⟩ := cf; simp [Except.map]
  · intro prog catp p1 p2 load clock cat sales tc w rows cw fw h1 h2 h3 h4 h5
    simp only [main, h1, processFiles, h2, h3, h4, h5]
    simp

/-- The file system of the C5 witness run: the catalogue and the
second sales file load; the first sales file does not. -/
def wLoad : String → Option (List Obj) := fun p =>
  if p = "cat.json" then some [⟨some "W", some 10, none, none⟩]
  else if p = "b.json" then some [⟨none, none, some "W", some 3⟩]
  else none

/-- Witness for C5: catalogue plus failing a.json plus loading b.json;
b.json's total 30 reaches both the console and the result file. -/
theorem C5_load_failure_policy_witness :
    main ["prog", "cat.json", "a.json", "b.json"] wLoad (fun _ => 0) =
      .ok ([Line.loadErr "a.json", Line.salesLoadFail "a.json", Line.label "b.json",
            Line.table [⟨some "W", 3, 10, 30⟩], Line.total 30, Line.elapsed 0],
           [Line.label "b.json", Line.table [⟨some "W", 3, 10, 30⟩], Line.total 30,
            Line.elapsed 0]) := by
  have h := C5_load_failure_policy.2.2 "prog" "cat.json" "a.json" "b.json" wLoad
    (fun _ => 0) [⟨some "W", some 10, none, none⟩] [⟨none, none, some "W", some 3⟩]
    30 [] [⟨some "W", 3, 10, 30⟩] [] []
    (by simp [wLoad]) (by simp [wLoad]) (by simp [wLoad])
    (by norm_num +decide [calculate_total_cost, calcSale, List.find?])
    (by norm_num +decide [tableLoop, tableStep, List.find?])
  norm_num at h
  exact h

/-- The file system of the C6 counterexample run: an empty catalogue
and one sales file whose single entry has no Quantity field. -/
def crashLoad : String → Option (List Obj) := fun p =>
  if p = "cat.json" then some []
  else if p = "sales.json" then some [⟨none, none, some "X", none⟩]
  else none

/-- Counterexample to C6 as stated: on a sale entry whose Quantity
field is absent, abs(sale.get('Quantity')) raises a TypeError that no
handler catches, so the run ends with an uncaught exception instead of
a warning or terminal message. -/
theorem C6_counterexample :
    main ["prog", "cat.json", "sales.json"] crashLoad (fun _ => 0) =
      .error "TypeError" := by
  norm_num +decide [main, processFiles, crashLoad, calculate_total_cost, calcSale]

lemma calcSale_ok_of_some_qty (cat : List Obj) (s : Obj)
    (h : (s.quantity).isSome) : ∃ u, calcSale cat s = .ok u := by
  obtain ⟨q, hq⟩ := Option.isSome_iff_exists.mp h
  cases hf : cat.find? (fun p => p.title == s.product) with
  | none => exact ⟨(0, []), by simp [calcSale, hq, hf]⟩
  | some p =>
    by_cases h0 : p.price.getD 0 < 0
    · exact ⟨(|p.price.getD 0| * |q|, [Line.warnNegPrice s.product]),
        by simp [calcSale, hq, hf, h0]⟩
    · exact ⟨(p.price.getD 0 * |q|, []), by simp [calcSale, hq, hf, h0]⟩

lemma calc_ok_of_some_qty (cat sales : List Obj)
    (h : ∀ s ∈ sales, (s.quantity).isSome) :
    ∃ v, calculate_total_cost cat sales = .ok v := by
  induction sales with
  | nil => exact ⟨(0, []), rfl⟩
  | cons s rest ih =>
    obtain ⟨⟨c, w⟩, hc⟩ := calcSale_ok_of_some_qty cat s (h s (List.mem_cons_self s rest))
    obtain ⟨⟨cs, ws⟩, hv⟩ := ih (fun x hx => h x (List.mem_cons_of_mem s hx))
    exact ⟨(c + cs, w ++ ws), by simp [calculate_total_cost, hc, hv]⟩

lemma tableStep_ok_of_some_qty (cat : List Obj) (s : Obj)
    (h : (s.quantity).isSome) : ∃ u, tableStep cat s = .ok u := by
  obtain ⟨q, hq⟩ := Option.isSome_iff_exists.mp h
  cases hf : cat.find? (fun p => p.title == s.product) with
  | none =>
    exact ⟨([], (if q < 0 then [Line.warnNegQty s.product] else []) ++
      [Line.warnNotFound s.product], [Line.warnNotFound s.product]),
      by simp [tableStep, hq, hf]⟩
  | some p =>
    exact ⟨([⟨s.product, |q|, if p.price.getD 0 < 0 then |p.price.getD 0| else p.price.getD 0,
        (if p.price.getD 0 < 0 then |p.price.getD 0| else p.price.getD 0) * |q|⟩],
      if q < 0 then [Line.warnNegQty s.product] else [], []),
      by simp [tableStep, hq, hf]⟩

lemma table_ok_of_some_qty (cat sales : List Obj)
    (h : ∀ s ∈ sales, (s.quantity).isSome) :
    ∃ v, tableLoop cat sales = .ok v := by
  induction sales with
  | nil => exact ⟨([], [], []), rfl⟩
  | cons s rest ih =>
    obtain ⟨⟨r, c, f⟩, hc⟩ := tableStep_ok_of_some_qty cat s (h s (List.mem_cons_self s rest))
    obtain ⟨⟨rs, cs, fs⟩, hv⟩ := ih (fun x hx => h x (List.mem_cons_of_mem s hx))
    exact ⟨(r ++ rs, c ++ cs, f ++ fs), by simp [tableLoop, hc, hv]⟩

lemma processFiles_ok (cat : List Obj) (load : String → Option (List Obj))
    (clock : Nat → Rat) (start : Rat) (ps : List String) (i : Nat)
    (h : ∀ p ∈ ps, ∀ doc, load p = some doc → ∀ s ∈ doc, Option.isSome s.quantity) :
    ∃ out, processFiles cat load clock start ps i = .ok out := by
  induction ps generalizing i with
  | nil => exact ⟨([], []), rfl⟩
  | cons p ps' ih =>
    cases hl : load p with
    | none =>
      obtain ⟨⟨c, f⟩, hout⟩ := ih i (fun x hx => h x (List.mem_cons_of_mem p hx))
      exact ⟨(Line.loadErr p :: Line.salesLoadFail p :: c, f),
        by simp [processFiles, hl, hout]⟩
    | some sales =>
      have hq : ∀ s ∈ sales, Option.isSome s.quantity :=
        h p (List.mem_cons_self p ps') sales hl
      obtain ⟨⟨tc, w⟩, h1⟩ := calc_ok_of_some_qty cat sales hq
      obtain ⟨⟨rows, cw, fw⟩, h2⟩ := table_ok_of_some_qty cat sales hq
      obtain ⟨⟨c, f⟩, h3⟩ := ih (i + 2) (fun x hx => h x (List.mem_cons_of_mem p hx))
      exact ⟨(Line.label p ::
          (w ++ cw ++ [Line.table rows, Line.total tc, Line.elapsed (clock i - start)] ++ c),
        Line.label p ::
          (fw ++ [Line.table rows, Line.total tc, Line.elapsed (clock (i + 1) - start)] ++ f)),
        by simp [processFiles, hl, h1, h2, h3]⟩

/-- C6 amended: when every sale entry of every loadable sales file has
a Quantity field, the run never ends in an uncaught exception — load
failures, negative values, unmatched products, missing Product fields
and usage errors are all absorbed into messages; only a sale entry with
an absent Quantity field makes a TypeError escape the top-level run. -/
theorem C6_no_exception_with_quantities (prog catp : String) (ps : List String)
    (load : String → Option (List Obj)) (clock : Nat → Rat)
    (h : ∀ p ∈ ps, ∀ doc, load p = some doc → ∀ s ∈ doc, Option.isSome s.quantity) :
    ∃ out, main (prog :: catp :: ps) load clock = .ok out := by
  cases ps with
  | nil => exact ⟨([Line.usage], []), rfl⟩
  | cons p ps' =>
    cases hl : load catp with
    | none => exact ⟨([Line.loadErr catp, Line.catLoadFail], []), by simp [main, hl]⟩
    | some cat =>
      obtain ⟨out, hout⟩ := processFiles_ok cat load clock (clock 0) (p :: ps') 1 h
      exact ⟨out, by simp [main, hl, hout]⟩

/-- The file system of the C6 witness run: every loaded sale entry
carries a Quantity field. -/
def goodLoad : String → Option (List Obj) := fun p =>
  if p = "cat.json" then some [⟨some "W", some 10, none, none⟩]
  else if p = "good.json" then some [⟨none, none, some "W", some 3⟩]
  else none

/-- Witness for the amended C6 on a concrete run with a well-formed
sales file. -/
theorem C6_no_exception_with_quantities_witness :
    ∃ out, main ["prog", "cat.json", "good.json"] goodLoad (fun _ => 0) = .ok out :=
  C6_no_exception_with_quantities "prog" "cat.json" ["good.json"] goodLoad (fun _ => 0)
    (by
      intro p hp doc hdoc s hs
      simp only [List.mem_singleton] at hp
      subst hp
      have hg : goodLoad "good.json" = some [⟨none, none, some "W", some 3⟩] := by
        simp [goodLoad]
      rw [hg, Option.some.injEq] at hdoc
      subst hdoc
      simp only [List.mem_singleton] at hs
      subst hs
      rfl)

/-- The file system of the C7 runs: a catalogue with a negative price
and one matching sales file, so that the run emits a negative-price
warning to the console. -/
def mirrorLoad : String → Option (List Obj) := fun p =>
  if p = "c" then some [⟨some "G", some (-5), none, none⟩]
  else if p = "s" then some [⟨none, none, some "G", some 2⟩]
  else none

/-- Counterexample to C7 as stated: the negative-price warning is
printed to the console of this run but is not among the lines written
to the result file, so the console content is not mirrored
line-for-line in the file. -/
theorem C7_counterexample :
    main ["prog", "c", "s"] mirrorLoad (fun _ => 0) =
      .ok ([Line.label "s", Line.warnNegPrice (some "G"),
            Line.table [⟨some "G", 2, 5, 10⟩], Line.total 10, Line.elapsed 0],
           [Line.label "s", Line.table [⟨some "G", 2, 5, 10⟩], Line.total 10,
            Line.elapsed 0])
    ∧ Line.warnNegPrice (some "G") ∉
        [Line.label "s", Line.table [⟨some "G", 2, 5, 10⟩], Line.total 10,
         Line.elapsed 0] := by
  constructor
  · norm_num +decide [main, processFiles, calculate_total_cost, calcSale, tableStep,
      tableLoop, List.find?, mirrorLoad, abs]
  · decide

lemma calcSale_warns_unshared (cat : List Obj) (s : Obj) (c : Rat) (w : List Line)
    (h : calcSale cat s = .ok (c, w)) : ∀ l ∈ w, l.shared = false := by
  cases hq : s.quantity with
  | none => simp [calcSale, hq] at h
  | some q =>
    cases hf : cat.find? (fun p => p.title == s.product) with
    | none =>
      simp only [calcSale, hq, hf, Except.ok.injEq, Prod.mk.injEq] at h
      rw [← h.2]
      simp
    | some p =>
      by_cases h0 : p.price.getD 0 < 0 <;>
        simp only [calcSale, hq, hf, h0, if_true, if_false,
          Except.ok.injEq, Prod.mk.injEq] at h <;> rw [← h.2]
      · intro l hl
        simp only [List.mem_singleton] at hl
        subst hl
        rfl
      · simp

lemma calc_warns_unshared (cat sales : List Obj) (t : Rat) (w : List Line)
    (h : calculate_total_cost cat sales = .ok (t, w)) : ∀ l ∈ w, l.shared = false := by
  induction sales generalizing t w with
  | nil =>
    simp only [calculate_total_cost, Except.ok.injEq, Prod.mk.injEq] at h
    rw [← h.2]
    simp
  | cons s rest ih =>
    simp only [calculate_total_cost] at h
    cases h1 : calcSale cat s with
    | error e => rw [h1] at h; simp at h
    | ok v =>
      obtain ⟨c, w1⟩ := v
      rw [h1] at h
      cases h2 : calculate_total_cost cat rest with
      | error e2 => rw [h2] at h; simp at h
      | ok u =>
        obtain ⟨cs, ws⟩ := u
        rw [h2] at h
        simp only [Except.ok.injEq, Prod.mk.injEq] at h
        rw [← h.2]
        intro l hl
        rcases List.mem_append.mp hl with hm | hm
        · exact calcSale_warns_unshared cat s c w1 h1 l hm
        · exact ih cs ws h2 l hm

lemma tableStep_shared_sub (cat : List Obj) (s : Obj) (rows : List Row)
    (cw fw : List Line) (h : tableStep cat s = .ok (rows, cw, fw)) :
    ∀ l ∈ cw, l.shared = true → l ∈ fw := by
  cases hq : s.quantity with
  | none => simp [tableStep, hq] at h
  | some q =>
    cases hf : cat.find? (fun p => p.title == s.product) with
    | some p =>
      simp only [tableStep, hq, hf, Except.ok.injEq, Prod.mk.injEq] at h
      rw [← h.2.1]
      intro l hl hsh
      by_cases h0 : q < 0
      · rw [if_pos h0] at hl
        simp only [List.mem_singleton] at hl
        subst hl
        simp [Line.shared] at hsh
      · rw [if_neg h0] at hl
        simp at hl
    | none =>
      simp only [tableStep, hq, hf, Except.ok.injEq, Prod.mk.injEq] at h
      rw [← h.2.1, ← h.2.2]
      intro l hl hsh
      rcases List.mem_append.mp hl with hm | hm
      · by_cases h0 : q < 0
        · rw [if_pos h0] at hm
          simp only [List.mem_singleton] at hm
          subst hm
          simp [Line.shared] at hsh
        · rw [if_neg h0] at hm
          simp at hm
      · exact hm

lemma tableLoop_shared_sub (cat sales : List Obj) (rows : List Row)
    (cw fw : List Line) (h : tableLoop cat sales = .ok (rows, cw, fw)) :
    ∀ l ∈ cw, l.shared = true → l ∈ fw := by
  induction sales generalizing rows cw fw with
  | nil =>
    simp only [tableLoop, Except.ok.injEq, Prod.mk.injEq] at h
    rw [← h.2.1]
    simp
  | cons s rest ih =>
    simp only [tableLoop] at h
    cases h1 : tableStep cat s with
    | error e => rw [h1] at h; simp at h
    | ok v =>
      obtain ⟨r1, c1, f1⟩ := v
      rw [h1] at h
      cases h2 : tableLoop cat rest with
      | error e2 => rw [h2] at h; simp at h
      | ok u =>
        obtain ⟨rs, cs, fs⟩ := u
        rw [h2] at h
        simp only [Except.ok.injEq, Prod.mk.injEq] at h
        rw [← h.2.1, ← h.2.2]
        intro l hl hsh
        rcases List.mem_append.mp hl with hm | hm
        · exact List.mem_append_left fs (tableStep_shared_sub cat s r1 c1 f1 h1 l hm hsh)
        · exact List.mem_append_right f1 (ih rs cs fs h2 l hm hsh)

lemma processFiles_shared (cat : List Obj) (load : String → Option (List Obj))
    (clock : Nat → Rat) (start : Rat) (ps : List String) (i : Nat)
    (c f : List Line) (h : processFiles cat load clock start ps i = .ok (c, f)) :
    ∀ l ∈ c, l.shared = true → l ∈ f := by
  induction ps generalizing i c f with
  | nil =>
    simp only [processFiles, Except.ok.injEq, Prod.mk.injEq] at h
    rw [← h.1]
    simp
  | cons p ps' ih =>
    simp only [processFiles] at h
    cases hl : load p with
    | none =>
      rw [hl] at h
      cases h3 : processFiles cat load clock start ps' i with
      | error e => rw [h3] at h; simp at h
      | ok u =>
        obtain ⟨c', f'⟩ := u
        rw [h3] at h
        simp only [Except.ok.injEq, Prod.mk.injEq] at h
        rw [← h.1, ← h.2]
        intro l hl2 hsh
        simp only [List.mem_cons] at hl2
        rcases hl2 with rfl | rfl | hl2
        · simp [Line.shared] at hsh
        · simp [Line.shared] at hsh
        · exact ih i c' f' h3 l hl2 hsh
    | some sales =>
      simp only [hl] at h
      cases h1 : calculate_total_cost cat sales with
      | error e => simp [h1] at h
      | ok v =>
        obtain ⟨tc, w⟩ := v
        simp only [h1] at h
        cases h2 : tableLoop cat sales with
        | error e2 => simp [h2] at h
        | ok u =>
          obtain ⟨rows, cw, fw⟩ := u
          simp only [h2] at h
          cases h3 : processFiles cat load clock start ps' (i + 2) with
          | error e3 => simp [h3] at h
          | ok z =>
            obtain ⟨c', f'⟩ := z
            simp only [h3] at h
            simp only [Except.ok.injEq, Prod.mk.injEq] at h
            rw [← h.1, ← h.2]
            intro l hl2 hsh
            simp only [List.mem_cons, List.mem_append] at hl2
            rcases hl2 with rfl | hl2
            · exact List.mem_cons_self _ _
            · rcases hl2 with ((hm | hm) | hm) | hm
              · exact absurd hsh (by simp [calc_warns_unshared cat sales tc w h1 l hm])
              · have hfw := tableLoop_shared_sub cat sales rows cw fw h2 l hm hsh
                simp [List.mem_cons, List.mem_append, hfw]
              · simp only [List.mem_cons, List.not_mem_nil, or_false] at hm
                rcases hm with rfl | rfl | rfl
                · simp [List.mem_cons, List.mem_append]
                · simp [List.mem_cons, List.mem_append]
                · simp [Line.shared] at hsh
              · have hf' := ih (i + 2) c' f' h3 l hm hsh
                simp [List.mem_cons, List.mem_append, hf']

/-- C7 amended: every per-file label, table, unmatched-product warning
and total line printed to the console is also written to the result
file; but negative-price and negative-quantity warnings and
load-failure messages appear only on the console, and the elapsed-time
lines are recomputed for the file, so the console is not mirrored
line-for-line. -/
theorem C7_shared_lines_reach_file (argv : List String)
    (load : String → Option (List Obj)) (clock : Nat → Rat) (c f : List Line)
    (h : main argv load clock = .ok (c, f)) :
    ∀ l ∈ c, l.shared = true → l ∈ f := by
  match argv with
  | [] =>
    simp only [main, Except.ok.injEq, Prod.mk.injEq] at h
    rw [← h.1]
    intro l hl hsh
    simp only [List.mem_singleton] at hl
    subst hl
    simp [Line.shared] at hsh
  | [a] =>
    simp only [main, Except.ok.injEq, Prod.mk.injEq] at h
    rw [← h.1]
    intro l hl hsh
    simp only [List.mem_singleton] at hl
    subst hl
    simp [Line.shared] at hsh
  | [a, b] =>
    simp only [main, Except.ok.injEq, Prod.mk.injEq] at h
    rw [← h.1]
    intro l hl hsh
    simp only [List.mem_singleton] at hl
    subst hl
    simp [Line.shared] at hsh
  | a :: catp :: p :: ps =>
    simp only [main] at h
    cases hl : load catp with
    | none =>
      rw [hl] at h
      simp only [Except.ok.injEq, Prod.mk.injEq] at h
      rw [← h.1]
      intro l hl2 hsh
      simp only [List.mem_cons, List.not_mem_nil, or_false] at hl2
      rcases hl2 with rfl | rfl
      · simp [Line.shared] at hsh
      · simp [Line.shared] at hsh
    | some cat =>
      rw [hl] at h
      exact processFiles_shared cat load clock (clock 0) (p :: ps) 1 c f h

/-- Witness for the amended C7: in the mirrorLoad run, the per-file
label printed to the console is indeed in the result file. -/
theorem C7_shared_lines_reach_file_witness :
    Line.label "s" ∈ [Line.label "s", Line.table [⟨some "G", 2, 5, 10⟩],
      Line.total 10, Line.elapsed 0] :=
  C7_shared_lines_reach_file ["prog", "c", "s"] mirrorLoad (fun _ => 0)
    [Line.label "s", Line.warnNegPrice (some "G"), Line.table [⟨some "G", 2, 5, 10⟩],
     Line.total 10, Line.elapsed 0]
    [Line.label "s", Line.table [⟨some "G", 2, 5, 10⟩], Line.total 10, Line.elapsed 0]
    (by norm_num +decide [main, processFiles, calculate_total_cost, calcSale,
      tableStep, tableLoop, List.find?, mirrorLoad, abs])
    (Line.label "s") (by decide) rfl

end ComputeSales
